import Mathlib

/-
  Verification development for the block-builder sandbox.

  The JavaScript sources are embedded shallowly:
  numbers are rationals (reals only where the source normalizes vectors),
  JS objects used as string-keyed maps are association lists,
  and fallible operations return Option.
-/

namespace BlockBuilder

/-- A JavaScript runtime value as far as this embedding needs it: either a
finite number, or any non-numeric value (undefined, NaN, a string, ...). -/
inductive JSVal where
  | num (q : ℚ)
  | nonnum
deriving DecidableEq, Repr

/-- JS Math.round: round half towards positive infinity. -/
def jsRound (x : ℚ) : ℤ := ⌊x + 1 / 2⌋

/-- The JS remainder operator on integers: truncated remainder
(sign follows the dividend), which is Int.tmod. -/
def jsRem (a b : ℤ) : ℤ := Int.tmod a b

/-- Indexing a JS number array: out-of-range access yields undefined. -/
def jsIndex (l : List ℚ) (i : ℕ) : JSVal :=
  match l.get? i with
  | some q => .num q
  | none => .nonnum

/-- Indexing an array of JS values; out-of-range access yields undefined. -/
def jsAt (l : List JSVal) (i : ℕ) : JSVal := l.getD i .nonnum

/-- Halving a JS value: a number is divided by 2, dividing a non-number
gives NaN, also a non-number. -/
def jsHalf : JSVal → JSVal
  | .num q => .num (q / 2)
  | .nonnum => .nonnum

/-- The JS expression (c || fallback) on color codes: 0 is falsy. -/
def jsOrColor (c : ℕ) (fallback : ℕ) : ℕ := if c = 0 then fallback else c

/-- A THREE/CANNON vector with rational components. -/
structure Vec3Q where
  x : ℚ
  y : ℚ
  z : ℚ
deriving DecidableEq, Repr

/-- A vector whose components are raw JS values (mesh transforms can hold
non-numeric components after loading malformed data). -/
structure JSVec3 where
  x : JSVal
  y : JSVal
  z : JSVal
deriving DecidableEq, Repr

/- ===================== Asset catalog (src/data/AssetCatalog.js) ============

AssetDescriptor: the materialType field is a constant string on every entry
and is never read by the embedded code, so it is omitted. -/

structure AssetDescriptor where
  id : String
  displayName : String
  size : List ℚ
  color : ℕ
  isStructure : Bool
deriving DecidableEq, Repr

def floorAsset : AssetDescriptor :=
  { id := "floor", displayName := "Floor Plane", size := [200, 200],
    color := 0x475569, isStructure := true }

def wallAsset : AssetDescriptor :=
  { id := "wall", displayName := "Simple Wall", size := [15, 6, 3 / 10],
    color := 0xffffff, isStructure := true }

def sofaAsset : AssetDescriptor :=
  { id := "sofa", displayName := "Sofa", size := [3, 1, 1],
    color := 0x8b5cf6, isStructure := false }

def tableAsset : AssetDescriptor :=
  { id := "table", displayName := "Coffee Table", size := [1, 1 / 2, 1],
    color := 0xf59e0b, isStructure := false }

/-- The ASSETS object: key/descriptor pairs in declaration order. -/
def ASSETS : List (String × AssetDescriptor) :=
  [("FLOOR", floorAsset), ("WALL", wallAsset),
   ("SOFA", sofaAsset), ("TABLE", tableAsset)]

/-- DECORATION_ASSET_KEYS from AssetCatalog.js. -/
def DECORATION_ASSET_KEYS : List String := ["SOFA", "TABLE", "WALL"]

/-- ASSETS[key]: property access on the catalog object; an unknown key
yields undefined, modelled as none. -/
def assetForKey (key : String) : Option AssetDescriptor :=
  (ASSETS.find? (fun p => p.1 == key)).map Prod.snd

/-- Object.values(ASSETS).find(a =&gt; a.id === aid) from loadProject. -/
def findAssetById (aid : String) : Option AssetDescriptor :=
  (ASSETS.map Prod.snd).find? (fun a => a.id == aid)

/-- DECORATION_ASSET_KEYS[i] for a JS (possibly negative) index. -/
def decorationKeyAt (i : ℤ) : Option String :=
  if 0 ≤ i then DECORATION_ASSET_KEYS.get? i.toNat else none

/- ===================== constants.js ===================== -/

def fixedTimeStep : ℚ := 1 / 60
def maxSubSteps : ℕ := 3
def playerRadius : ℚ := 3 / 2
def JUMP_VELOCITY : ℚ := 15
def MOVEMENT_SPEED : ℚ := 25

def blockColors : List ℕ := [0xf59e0b, 0xef4444, 0x10b981, 0x3b82f6, 0x8b5cf6]

/-- The module-level colorIndex from constants.js. The scene-action code
only reads it; cycleColorIndex is never invoked on this code path, so it
stays at its initial value 0. -/
def colorIndex : ℕ := 0

/- ===================== PlacementTool (src/scene/PlacementTool.js) ========= -/

/-- One raycaster intersection record: the userData.assetId of the hit
object (none when the mesh never had one set) and the hit point. -/
structure Intersection where
  assetId : Option String
  point : Vec3Q
deriving DecidableEq, Repr

/-- Mutable state of the ghost preview mesh: its position (components can in
principle be non-numeric), visibility, accumulated yaw, and the visual
attributes set by updateGhostVisuals. -/
structure GhostState where
  position : JSVec3
  visible : Bool
  rotationY : ℚ
  geomW : JSVal
  geomH : JSVal
  geomD : JSVal
  color : ℕ
deriving DecidableEq, Repr

/-- initGhostBlock: a unit box, white, at the origin, visible (THREE meshes
are visible by default). -/
def initGhost : GhostState :=
  { position := ⟨.num 0, .num 0, .num 0⟩, visible := true, rotationY := 0,
    geomW := .num 1, geomH := .num 1, geomD := .num 1, color := 0xffffff }

/-- const [w, h, d] = asset.size destructuring. Every catalog entry has a
size array, so the || [1, 1, 1] fallback is dead; destructuring a short
array yields undefined components. -/
def sizeWHD (a : AssetDescriptor) : JSVal × JSVal × JSVal :=
  (jsIndex a.size 0, jsIndex a.size 1, jsIndex a.size 2)

/-- PlacementTool.updateGhostVisuals: look up ASSETS[assetKey]; if the asset
is missing, return unchanged, otherwise replace the ghost geometry with the
asset box and recolor it. -/
def updateGhostVisuals (g : GhostState) (assetKey : Option String) : GhostState :=
  match assetKey.bind assetForKey with
  | none => g
  | some asset =>
      let s := sizeWHD asset
      { g with geomW := s.1, geomH := s.2.1, geomD := s.2.2,
               color := jsOrColor asset.color 0xcccccc }

/-- PlacementTool.rotateGhost: accumulate a yaw offset. -/
def rotateGhost (g : GhostState) (angle : ℚ) : GhostState :=
  { g with rotationY := g.rotationY + angle }

/-- PlacementTool.updateGhostPosition, given the selected asset (the caller
passes ASSETS[assetKey]; the SceneManager only selects decoration keys, all
of which resolve) and the raycaster intersection list against all scene
children. The source searches the intersections for one whose object has
userData.assetId equal to ASSETS.FLOOR.id: only floor hits count.
The grid step is the literal 1, and the elevation is half the selected
asset height (asset.size is an array, hence truthy, so the 0.5 fallback of
the conditional is dead). The hit point's y coordinate is never read. -/
def updateGhostPosition (g : GhostState) (asset : AssetDescriptor)
    (intersects : List Intersection) : GhostState :=
  if intersects.length > 0 then
    match intersects.find? (fun i => i.assetId == some floorAsset.id) with
    | some intersect =>
        let point := intersect.point
        let gridStep : ℚ := 1
        let snappedX : ℚ := (jsRound (point.x / gridStep) : ℚ) * gridStep
        let snappedZ : ℚ := (jsRound (point.z / gridStep) : ℚ) * gridStep
        let snappedY : JSVal := jsHalf (jsIndex asset.size 1)
        { g with position := ⟨.num snappedX, snappedY, .num snappedZ⟩,
                 visible := true }
    | none => { g with visible := false }
  else { g with visible := false }

/- ===================== changeAsset (SceneActions) ===================== -/

/-- The index update of changeAsset:
assetIndex = (assetIndex + direction) % DECORATION_ASSET_KEYS.length,
then += length if negative. JS % on numbers that are integers is the
truncated remainder. -/
def changeAssetIndex (i : ℤ) (direction : ℤ) : ℤ :=
  let len : ℤ := (DECORATION_ASSET_KEYS.length : ℤ)
  let j := jsRem (i + direction) len
  if j < 0 then j + len else j

/- ===================== Player jump (SceneInitializer.js / game.js) ======== -/

/-- The player-facing physics state touched by handleJump. -/
structure PlayerState where
  vx : ℚ
  vy : ℚ
  vz : ℚ
  isGrounded : Bool
  movementEnabled : Bool
deriving DecidableEq, Repr

/-- handleJump as in SceneInitializer.js lines 200-205 (game.js lines 43-48
is the same logic): the player body is created during initialization and
never removed, so the this.playerBody null check is always true. -/
def handleJump (s : PlayerState) : PlayerState :=
  if s.isGrounded then { s with vy := JUMP_VELOCITY, isGrounded := false } else s

/- ===================== Movement controller, game.js animate =============
The game.js loop normalizes the summed input vector before scaling, which
involves a square root, so this part is embedded over the reals. -/

/-- A vector with real components, for the normalizing movement path. -/
structure Vec3R where
  x : ℝ
  y : ℝ
  z : ℝ

def vaddR (a b : Vec3R) : Vec3R := ⟨a.x + b.x, a.y + b.y, a.z + b.z⟩

def vsmulR (s : ℝ) (v : Vec3R) : Vec3R := ⟨s * v.x, s * v.y, s * v.z⟩

/-- THREE lengthSq. -/
def lengthSqR (v : Vec3R) : ℝ := v.x * v.x + v.y * v.y + v.z * v.z

/-- THREE length. -/
noncomputable def lengthR (v : Vec3R) : ℝ := Real.sqrt (lengthSqR v)

/-- THREE normalize: divideScalar(length or 1 when the length is 0). -/
noncomputable def threeNormalizeR (v : Vec3R) : Vec3R :=
  vsmulR (1 / (if lengthR v = 0 then 1 else lengthR v)) v

/-- crossVectors((0,1,0), d). -/
def crossUpR (d : Vec3R) : Vec3R := ⟨d.z, 0, -d.x⟩

/-- The movement section of game.js animate (lines 347-371): zero the y
component of the camera direction and normalize; build the right vector as
cross(up, dir) normalized; sum unit contributions of the four flags; if the
sum is nonzero, normalize it and scale by the movement speed. The function
returns the velocity vector whose x and z components are written to the
player body. -/
noncomputable def gameAnimateVelocity (camDir : Vec3R) (moveSpeed : ℝ)
    (mF mB mL mR : Bool) : Vec3R :=
  let dir := threeNormalizeR ⟨camDir.x, 0, camDir.z⟩
  let right := threeNormalizeR (crossUpR dir)
  let v0 : Vec3R := ⟨0, 0, 0⟩
  let v1 := if mF then vaddR v0 (vsmulR 1 dir) else v0
  let v2 := if mB then vaddR v1 (vsmulR (-1) dir) else v1
  let v3 := if mL then vaddR v2 (vsmulR 1 right) else v2
  let v4 := if mR then vaddR v3 (vsmulR (-1) right) else v3
  if lengthSqR v4 > 0 then vsmulR moveSpeed (threeNormalizeR v4) else v4

/- ============== Movement controller, SceneManager.js animate =============
The SceneManager loop sums contributions already scaled by
MOVEMENT_SPEED * delta and divides by delta when writing the body velocity;
it never normalizes the sum. It is embedded over the rationals,
parametrized by the already-normalized horizontal camera direction: the
source computes that direction as (0,0,-1) rotated about the y axis, a unit
horizontal vector, so the y-zeroing and both normalize() calls are the
identity on it (and on the right vector cross(up, dir)). -/

/-- THREE addScaledVector. -/
def addScaledQ (v w : Vec3Q) (s : ℚ) : Vec3Q :=
  ⟨v.x + w.x * s, v.y + w.y * s, v.z + w.z * s⟩

/-- The inputVelocity accumulation of SceneManager.animate (lines 80-91). -/
def smInputVelocity (dir : Vec3Q) (delta : ℚ) (mF mB mL mR : Bool) : Vec3Q :=
  let right : Vec3Q := ⟨dir.z, 0, -dir.x⟩
  let moveSpeed := MOVEMENT_SPEED * delta
  let v0 : Vec3Q := ⟨0, 0, 0⟩
  let v1 := if mF then addScaledQ v0 dir moveSpeed else v0
  let v2 := if mB then addScaledQ v1 dir (-moveSpeed) else v1
  let v3 := if mL then addScaledQ v2 right moveSpeed else v2
  let v4 := if mR then addScaledQ v3 right (-moveSpeed) else v3
  v4

/-- The (x, z) velocity pair written to the player body by
SceneManager.animate lines 94-95: inputVelocity times 1/delta. -/
def smAppliedVelocity (dir : Vec3Q) (delta : ℚ) (mF mB mL mR : Bool) : ℚ × ℚ :=
  let v := smInputVelocity dir delta mF mB mL mR
  (v.x * (1 / delta), v.z * (1 / delta))

/- ============== Controls / movement-gate state machine (C3) ==============
Composition of FirstPersonControls (src/controls.js under src/src),
setMovementEnabled (the SceneActions revision that defines it) and the
SceneManager frame loop. SceneInitializer.js line 142 constructs the
controls as FirstPersonControls(camera, cameraParent, canvas), passing no
fourth argument, so this.manager is undefined for the whole session; the
state records that wiring fact in hasManagerRef. -/

inductive MoveKey where
  | w
  | s
  | a
  | d
deriving DecidableEq, Repr

structure CtrlState where
  hasManagerRef : Bool
  movementEnabled : Bool
  isLocked : Bool
  moveForward : Bool
  moveBackward : Bool
  moveLeft : Bool
  moveRight : Bool
  isGrounded : Bool
  velX : ℚ
  velY : ℚ
  velZ : ℚ
deriving DecidableEq, Repr

/-- Startup state: setupActions sets manager.movementEnabled = true; the
SceneManager constructor sets isGrounded = true; pointer lock is off; no
manager reference is ever handed to the controls. -/
def ctrlInit : CtrlState :=
  { hasManagerRef := false, movementEnabled := true, isLocked := false,
    moveForward := false, moveBackward := false, moveLeft := false,
    moveRight := false, isGrounded := true, velX := 0, velY := 0, velZ := 0 }

/-- The guard (this.manager and not this.manager.movementEnabled) used by
_onKeyDown, _onKeyUp, _onPointerDown and update. -/
def managerBlocks (s : CtrlState) : Bool := s.hasManagerRef && !s.movementEnabled

def setMoveKey (s : CtrlState) (k : MoveKey) (b : Bool) : CtrlState :=
  match k with
  | .w => { s with moveForward := b }
  | .s => { s with moveBackward := b }
  | .a => { s with moveLeft := b }
  | .d => { s with moveRight := b }

/-- The events that can hit the composed controls/manager state. -/
inductive GameEv where
  | lock
  | unlock
  | keyDown (k : MoveKey)
  | keyUp (k : MoveKey)
  | jumpKey
  | setMovementEnabled (b : Bool)
  | collide
  | frame (dir : Vec3Q) (delta : ℚ)

/-- One transition of the composed system.
keyDown/keyUp/jumpKey follow _onKeyDown/_onKeyUp: return when not pointer
locked, return when the manager guard blocks (it never does: no manager).
jumpKey then runs onJump = manager.handleJump of the revision that defines
setMovementEnabled, which returns when movementEnabled is false.
setMovementEnabled b writes the flag and, when disabling, zeroes the player
velocity; its this.controls.setEnabled(enabled) call is skipped because the
controls class names that method setControlsEnabled, so it is not a
function. collide is the player body collide listener setting isGrounded.
frame is one SceneManager.animate pass: the loop never calls
controls.update (and update would not clear the flags anyway, lacking the
manager reference), then overwrites the horizontal body velocity from the
flags; integration of gravity and contacts by world.step concerns only the
physics engine and is outside the movement controller modelled here. -/
def ctrlStep (s : CtrlState) : GameEv → CtrlState
  | .lock => { s with isLocked := true }
  | .unlock => { s with isLocked := false }
  | .keyDown k =>
      if s.isLocked = false then s
      else if managerBlocks s then s
      else setMoveKey s k true
  | .keyUp k =>
      if s.isLocked = false then s
      else if managerBlocks s then s
      else setMoveKey s k false
  | .jumpKey =>
      if s.isLocked = false then s
      else if managerBlocks s then s
      else if s.movementEnabled = false then s
      else if s.isGrounded then
        { s with velY := JUMP_VELOCITY, isGrounded := false }
      else s
  | .setMovementEnabled b =>
      if b = false then
        { s with movementEnabled := b, velX := 0, velY := 0, velZ := 0 }
      else { s with movementEnabled := b }
  | .collide => { s with isGrounded := true }
  | .frame dir delta =>
      let p := smAppliedVelocity dir delta
        s.moveForward s.moveBackward s.moveLeft s.moveRight
      { s with velX := p.1, velZ := p.2 }

/-- States reachable from startup through any event sequence. -/
inductive CtrlReachable : CtrlState → Prop where
  | init : CtrlReachable ctrlInit
  | step (s : CtrlState) (e : GameEv) :
      CtrlReachable s → CtrlReachable (ctrlStep s e)

/-- A concrete session: acquire pointer lock, disable movement (a
cinematic/hit-reaction gate), press and hold W, then run one frame at
camera direction (0, 0, -1) and delta 1/60. -/
def c3Trace : List GameEv :=
  [.lock, .setMovementEnabled false, .keyDown .w, .frame ⟨0, 0, -1⟩ (1 / 60)]

/-- The state the session above reaches. -/
def c3State : CtrlState := c3Trace.foldl ctrlStep ctrlInit

/- ===================== Object Registry (SceneActions) =====================
placedMeshes and placedBodies are JS objects keyed by object id; the ids
are opaque strings, modelled as naturals. A JS object is an association
list in insertion order: assigning to an existing key updates it in place,
assigning a new key appends, and delete removes the entry. -/

/-- Assignment m[k] = v on a JS object. -/
def setKey {α : Type} (m : List (ℕ × α)) (k : ℕ) (v : α) : List (ℕ × α) :=
  match m with
  | [] => [(k, v)]
  | (k0, v0) :: rest =>
      if k0 = k then (k, v) :: rest else (k0, v0) :: setKey rest k v

/-- delete m[k] on a JS object (keys are unique, so removing the first
occurrence is removing the only one). -/
def delKey {α : Type} (m : List (ℕ × α)) (k : ℕ) : List (ℕ × α) :=
  match m with
  | [] => []
  | (k0, v0) :: rest =>
      if k0 = k then rest else (k0, v0) :: delKey rest k

/-- Property read m[k], undefined when absent. -/
def getKey {α : Type} (m : List (ℕ × α)) (k : ℕ) : Option α :=
  (m.find? (fun p => p.1 == k)).map Prod.snd

/-- Object.keys. -/
def keysOf {α : Type} (m : List (ℕ × α)) : List ℕ := m.map Prod.fst

/-- The data carried by a placed THREE mesh: the userData.assetId tag, the
box geometry dimensions, the transform, and the material color. -/
structure MeshData where
  assetId : String
  geomW : JSVal
  geomH : JSVal
  geomD : JSVal
  position : JSVec3
  rotX : JSVal
  rotY : JSVal
  rotZ : JSVal
  color : ℕ
deriving DecidableEq, Repr

/-- The data carried by a placed CANNON body: the box half extents, the
position and the Euler angles the quaternion was set from. -/
structure BodyData where
  halfW : JSVal
  halfH : JSVal
  halfD : JSVal
  position : JSVec3
  eulerX : JSVal
  eulerY : JSVal
  eulerZ : JSVal
deriving DecidableEq, Repr

/-- One element of a serialized project list. The position and rotation
fields hold none when the stored value is not an array; array elements are
raw JS values, since nothing forces them to be numbers. A null or undefined
list element itself is modelled as a none in the surrounding list. -/
structure ProjectEntry where
  id : ℕ
  assetId : String
  position : Option (List JSVal)
  rotation : Option (List JSVal)
deriving DecidableEq, Repr

/-- The SceneManager state the registry operations touch. sceneMeshes and
worldBodies are the placed meshes currently added to the THREE scene and
the placed bodies currently added to the CANNON world, tagged by object id
(the scene also holds the floor, lights, dynamic boxes and the ghost, which
the registry operations never remove; they are kept out of the model).
dynamicBodies receives the body of every commit: the source line
manager.dynamicBodies.push(cannonBody) in placeObject is read as
this.dynamicBodies, there being no binding named manager in scope at that
point. -/
structure RegState where
  placedMeshes : List (ℕ × MeshData)
  placedBodies : List (ℕ × BodyData)
  sceneMeshes : List (ℕ × MeshData)
  worldBodies : List (ℕ × BodyData)
  dynamicBodies : List BodyData
  assetIndex : ℤ
  isLocked : Bool
  ghost : GhostState
  nextId : ℕ
deriving DecidableEq, Repr

/-- Startup registry state (SceneManager constructor). -/
def initReg : RegState :=
  { placedMeshes := [], placedBodies := [], sceneMeshes := [],
    worldBodies := [], dynamicBodies := [], assetIndex := 0,
    isLocked := false, ghost := initGhost, nextId := 0 }

/-- The mesh built by placeObject from the selected asset and the ghost
data (getGhostData clones the ghost position and rotation; the ghost
rotation Euler is (0, rotationY, 0)). -/
def commitMesh (asset : AssetDescriptor) (g : GhostState) : MeshData :=
  let s := sizeWHD asset
  { assetId := asset.id, geomW := s.1, geomH := s.2.1, geomD := s.2.2,
    position := g.position,
    rotX := .num 0, rotY := .num g.rotationY, rotZ := .num 0,
    color := jsOrColor asset.color (blockColors.getD colorIndex 0) }

/-- The static body built by placeObject: half extents of the asset box,
the ghost position, quaternion set from the ghost Euler angles. -/
def commitBody (asset : AssetDescriptor) (g : GhostState) : BodyData :=
  let s := sizeWHD asset
  { halfW := jsHalf s.1, halfH := jsHalf s.2.1, halfD := jsHalf s.2.2,
    position := g.position,
    eulerX := .num 0, eulerY := .num g.rotationY, eulerZ := .num 0 }

/-- placeObject: return unless pointer locked; resolve
ASSETS[DECORATION_ASSET_KEYS[assetIndex]] and return if undefined; build
the mesh and the body from the ghost data; add them to the scene, the
world and the dynamicBodies array; record both under a fresh id (the
source draws the id from Date.now() and Math.random(); freshness is
modelled by the nextId counter). updatePlaceableSurfaces and the
saveProject call have no effect on this state. -/
def placeObject (s : RegState) : RegState :=
  if s.isLocked = false then s
  else
    match (decorationKeyAt s.assetIndex).bind assetForKey with
    | none => s
    | some asset =>
        let mesh := commitMesh asset s.ghost
        let body := commitBody asset s.ghost
        let newId := s.nextId
        { s with
          sceneMeshes := s.sceneMeshes ++ [(newId, mesh)],
          worldBodies := s.worldBodies ++ [(newId, body)],
          dynamicBodies := s.dynamicBodies ++ [body],
          placedMeshes := setKey s.placedMeshes newId mesh,
          placedBodies := setKey s.placedBodies newId body,
          nextId := s.nextId + 1 }

/-- removeObject(id): if a mesh is recorded under the id, remove that very
mesh from the scene and delete the map entry; independently, if a body is
recorded, remove it from the world and delete its entry. The geometry and
material dispose calls, updatePlaceableSurfaces, and the save (suppressed
by the skipSave argument during bulk reload) have no effect here. -/
def removeObject (s : RegState) (id : ℕ) : RegState :=
  let s1 :=
    match getKey s.placedMeshes id with
    | some mesh =>
        { s with sceneMeshes := s.sceneMeshes.erase (id, mesh),
                 placedMeshes := delKey s.placedMeshes id }
    | none => s
  match getKey s1.placedBodies id with
  | some body =>
      { s1 with worldBodies := s1.worldBodies.erase (id, body),
                placedBodies := delKey s1.placedBodies id }
  | none => s1

/-- One entry of the serialized project list: mesh.userData.assetId,
mesh.position.toArray() and mesh.rotation.toArray().slice(0, 3). -/
def serializeMesh (p : ℕ × MeshData) : Option ProjectEntry :=
  some { id := p.1, assetId := p.2.assetId,
         position := some [p.2.position.x, p.2.position.y, p.2.position.z],
         rotation := some [p.2.rotX, p.2.rotY, p.2.rotZ] }

/-- The serialized project list built by saveProject: one entry per
placedMeshes key, in key order. -/
def serializeProject (s : RegState) : List (Option ProjectEntry) :=
  s.placedMeshes.map serializeMesh

/-- Clearing step of loadProject: Object.keys(placedMeshes) is snapshot
first, then removeObject runs for each id. -/
def clearPlaced (s : RegState) : RegState :=
  (keysOf s.placedMeshes).foldl removeObject s

/-- The mesh built for a loaded entry: position.fromArray copies the first
three array elements, rotation.set takes elements 0..2, and userData gets
item.assetId. -/
def loadMesh (asset : AssetDescriptor) (e : ProjectEntry)
    (pos rot : List JSVal) : MeshData :=
  let s := sizeWHD asset
  { assetId := e.assetId, geomW := s.1, geomH := s.2.1, geomD := s.2.2,
    position := ⟨jsAt pos 0, jsAt pos 1, jsAt pos 2⟩,
    rotX := jsAt rot 0, rotY := jsAt rot 1, rotZ := jsAt rot 2,
    color := jsOrColor asset.color 0xcccccc }

/-- The body built for a loaded entry. Its position is
new Vec3().copy(item.position) where item.position is an array: an array
has no x, y, z properties, so all three components come out undefined. -/
def loadBody (asset : AssetDescriptor) (rot : List JSVal) : BodyData :=
  let s := sizeWHD asset
  { halfW := jsHalf s.1, halfH := jsHalf s.2.1, halfD := jsHalf s.2.2,
    position := ⟨.nonnum, .nonnum, .nonnum⟩,
    eulerX := jsAt rot 0, eulerY := jsAt rot 1, eulerZ := jsAt rot 2 }

/-- Per-entry body of the loadProject forEach: skip null items, skip items
whose position or rotation is not an array of length at least 3 (element
types are not checked), skip items whose assetId matches no catalog asset
id; otherwise add a fresh mesh and body to the scene, the world and both
registry maps under the item id. -/
def loadEntry (s : RegState) (item : Option ProjectEntry) : RegState :=
  match item with
  | none => s
  | some e =>
      match e.position, e.rotation with
      | some pos, some rot =>
          if pos.length < 3 ∨ rot.length < 3 then s
          else
            match findAssetById e.assetId with
            | none => s
            | some asset =>
                let mesh := loadMesh asset e pos rot
                let body := loadBody asset rot
                { s with
                  sceneMeshes := s.sceneMeshes ++ [(e.id, mesh)],
                  worldBodies := s.worldBodies ++ [(e.id, body)],
                  placedMeshes := setKey s.placedMeshes e.id mesh,
                  placedBodies := setKey s.placedBodies e.id body }
      | _, _ => s

/-- loadProject: when the argument is not an array (none), warn, clear and
return; otherwise clear every currently registered object (suppressing
saves) and load the entries one by one. -/
def loadProject (s : RegState) (projectData : Option (List (Option ProjectEntry))) :
    RegState :=
  match projectData with
  | none => clearPlaced s
  | some items => items.foldl loadEntry (clearPlaced s)

/-- changeAsset(direction): wrap the index, then refresh the ghost visuals
for the newly selected key (and the palette UI, which has no model state). -/
def changeAsset (s : RegState) (direction : ℤ) : RegState :=
  let i := changeAssetIndex s.assetIndex direction
  { s with assetIndex := i,
           ghost := updateGhostVisuals s.ghost (decorationKeyAt i) }

/-- The operations that can hit the registry between frames. moveGhost
over-approximates everything the per-frame updateGhostPosition, the
rotateGhost action and updateGhostVisuals can do to the ghost, since they
mutate only ghost fields; setLock covers pointer lock changes. -/
inductive RegOp where
  | commit
  | remove (id : ℕ)
  | reload (pd : Option (List (Option ProjectEntry)))
  | cycleAsset (direction : ℤ)
  | moveGhost (g : GhostState)
  | setLock (b : Bool)

def applyOp (s : RegState) : RegOp → RegState
  | .commit => placeObject s
  | .remove id => removeObject s id
  | .reload pd => loadProject s pd
  | .cycleAsset d => changeAsset s d
  | .moveGhost g => { s with ghost := g }
  | .setLock b => { s with isLocked := b }

/-- Replay of an operation sequence from the startup state. -/
def replayOps (ops : List RegOp) : RegState := ops.foldl applyOp initReg

/-- The two registry maps together. -/
def regMaps (s : RegState) : List (ℕ × MeshData) × List (ℕ × BodyData) :=
  (s.placedMeshes, s.placedBodies)

/-- Both maps list their keys identically. -/
def keysAligned (s : RegState) : Prop :=
  keysOf s.placedMeshes = keysOf s.placedBodies

instance (s : RegState) : Decidable (keysAligned s) := by
  unfold keysAligned; infer_instance

/-- Proof helper: the effect of loadEntry on the mesh map alone, with the
identical skip conditions; agreement with loadEntry is proved below. -/
def loadEntryMeshes (m : List (ℕ × MeshData)) : Option ProjectEntry →
    List (ℕ × MeshData)
  | none => m
  | some e =>
      match e.position, e.rotation with
      | some pos, some rot =>
          if pos.length < 3 ∨ rot.length < 3 then m
          else
            match findAssetById e.assetId with
            | none => m
            | some asset => setKey m e.id (loadMesh asset e pos rot)
      | _, _ => m

/-- Proof helper: the effect of loadEntry on the body map alone. -/
def loadEntryBodies (b : List (ℕ × BodyData)) : Option ProjectEntry →
    List (ℕ × BodyData)
  | none => b
  | some e =>
      match e.position, e.rotation with
      | some pos, some rot =>
          if pos.length < 3 ∨ rot.length < 3 then b
          else
            match findAssetById e.assetId with
            | none => b
            | some asset => setKey b e.id (loadBody asset rot)
      | _, _ => b

/-- The registry invariant every reachable state satisfies: the two maps
hold exactly the same keys in the same order, keys are unique, and every
recorded mesh carries an assetId that resolves in the catalog. -/
def RegInv (s : RegState) : Prop :=
  keysOf s.placedMeshes = keysOf s.placedBodies ∧
    (keysOf s.placedMeshes).Nodup ∧
    ∀ p ∈ s.placedMeshes, (findAssetById p.2.assetId).isSome = true

/- ===================== Theorems ===================== -/

/- Map-level lemmas about the JS-object operations. -/

theorem keysOf_setKey {α : Type} (m : List (ℕ × α)) (k : ℕ) (v : α) :
    keysOf (setKey m k v) =
      if k ∈ keysOf m then keysOf m else keysOf m ++ [k] := by
  induction m with
  | nil => simp [setKey, keysOf]
  | cons p rest ih =>
      obtain ⟨k0, v0⟩ := p
      by_cases h : k0 = k
      · subst h
        simp [setKey, keysOf]
      · have hne : ¬(k = k0) := fun hh => h hh.symm
        simp only [setKey, if_neg h, keysOf, List.map_cons] at ih ⊢
        rw [ih]
        by_cases hm : k ∈ List.map Prod.fst rest
        · simp [hm, hne, List.mem_cons]
        · simp [hm, hne, List.mem_cons]

theorem keysOf_delKey {α : Type} (m : List (ℕ × α)) (k : ℕ) :
    keysOf (delKey m k) = (keysOf m).erase k := by
  induction m with
  | nil => simp [delKey, keysOf]
  | cons p rest ih =>
      obtain ⟨k0, v0⟩ := p
      by_cases h : k0 = k
      · subst h
        simp [delKey, keysOf, List.erase_cons_head]
      · simp only [delKey, if_neg h, keysOf, List.map_cons, List.erase_cons]
        rw [if_neg (by simpa using h)]
        exact congrArg (fun l => k0 :: l) ih

theorem getKey_eq_none_iff {α : Type} (m : List (ℕ × α)) (k : ℕ) :
    getKey m k = none ↔ k ∉ keysOf m := by
  unfold getKey keysOf
  rw [Option.map_eq_none', List.find?_eq_none]
  simp only [beq_iff_eq, List.mem_map, not_exists]
  constructor
  · intro h p hp
    exact h p hp.1 hp.2
  · intro h p hp hfst
    exact h p ⟨hp, hfst⟩

theorem getKey_isSome_iff {α : Type} (m : List (ℕ × α)) (k : ℕ) :
    (getKey m k).isSome = true ↔ k ∈ keysOf m := by
  constructor
  · intro h
    by_contra hk
    rw [(getKey_eq_none_iff m k).mpr hk] at h
    exact Bool.noConfusion h
  · intro hk
    cases hg : getKey m k with
    | none => exact absurd ((getKey_eq_none_iff m k).mp hg) (not_not_intro hk)
    | some v => rfl

theorem setKey_not_mem {α : Type} (k : ℕ) (v : α) :
    ∀ m : List (ℕ × α), k ∉ keysOf m → setKey m k v = m ++ [(k, v)] := by
  intro m
  induction m with
  | nil => intro _; rfl
  | cons p rest ih =>
      intro h
      obtain ⟨k0, v0⟩ := p
      simp only [keysOf, List.map_cons, List.mem_cons, not_or] at h
      have hne : ¬(k0 = k) := fun hh => h.1 hh.symm
      simp only [setKey, if_neg hne, List.cons_append, List.cons.injEq,
        true_and]
      exact ih (by simpa [keysOf] using h.2)

theorem delKey_not_mem {α : Type} (k : ℕ) :
    ∀ m : List (ℕ × α), k ∉ keysOf m → delKey m k = m := by
  intro m
  induction m with
  | nil => intro _; rfl
  | cons p rest ih =>
      intro h
      obtain ⟨k0, v0⟩ := p
      simp only [keysOf, List.map_cons, List.mem_cons, not_or] at h
      have hne : ¬(k0 = k) := fun hh => h.1 hh.symm
      simp only [delKey, if_neg hne, List.cons.injEq, true_and]
      exact ih (by simpa [keysOf] using h.2)

theorem mem_setKey {α : Type} (k : ℕ) (v : α) (p : ℕ × α) :
    ∀ m : List (ℕ × α), p ∈ setKey m k v → p ∈ m ∨ p = (k, v) := by
  intro m
  induction m with
  | nil =>
      intro h
      simp only [setKey, List.mem_singleton] at h
      exact Or.inr h
  | cons q rest ih =>
      intro h
      obtain ⟨k0, v0⟩ := q
      by_cases hk : k0 = k
      · subst hk
        simp only [setKey, eq_self_iff_true, if_true, List.mem_cons] at h
        rcases h with h | h
        · exact Or.inr h
        · exact Or.inl (List.mem_cons_of_mem _ h)
      · simp only [setKey, if_neg hk, List.mem_cons] at h
        rcases h with h | h
        · exact Or.inl (h ▸ List.mem_cons_self _ _)
        · rcases ih h with h2 | h2
          · exact Or.inl (List.mem_cons_of_mem _ h2)
          · exact Or.inr h2

theorem mem_delKey {α : Type} (k : ℕ) (p : ℕ × α) :
    ∀ m : List (ℕ × α), p ∈ delKey m k → p ∈ m := by
  intro m
  induction m with
  | nil =>
      intro h
      simp [delKey] at h
  | cons q rest ih =>
      intro h
      obtain ⟨k0, v0⟩ := q
      by_cases hk : k0 = k
      · subst hk
        simp only [delKey, eq_self_iff_true, if_true] at h
        exact List.mem_cons_of_mem _ h
      · simp only [delKey, if_neg hk, List.mem_cons] at h
        rcases h with h | h
        · exact h ▸ List.mem_cons_self _ _
        · exact List.mem_cons_of_mem _ (ih h)

theorem nodup_setKey {α : Type} (m : List (ℕ × α)) (k : ℕ) (v : α)
    (h : (keysOf m).Nodup) : (keysOf (setKey m k v)).Nodup := by
  rw [keysOf_setKey]
  by_cases hm : k ∈ keysOf m
  · simpa [hm] using h
  · simp only [hm, if_false]
    simpa [List.nodup_append, hm] using h

/- Registry-state lemmas. -/

theorem removeObject_maps (s : RegState) (id : ℕ) :
    (removeObject s id).placedMeshes = delKey s.placedMeshes id ∧
      (removeObject s id).placedBodies = delKey s.placedBodies id := by
  unfold removeObject
  cases hm : getKey s.placedMeshes id with
  | none =>
      dsimp only
      rw [delKey_not_mem id _ ((getKey_eq_none_iff _ _).mp hm)]
      cases hb : getKey s.placedBodies id with
      | none =>
          dsimp only
          rw [delKey_not_mem id _ ((getKey_eq_none_iff _ _).mp hb)]
          exact ⟨rfl, rfl⟩
      | some b => exact ⟨rfl, rfl⟩
  | some mh =>
      dsimp only
      cases hb : getKey s.placedBodies id with
      | none =>
          dsimp only
          rw [delKey_not_mem id _ ((getKey_eq_none_iff _ _).mp hb)]
          exact ⟨rfl, rfl⟩
      | some b => exact ⟨rfl, rfl⟩

/-- Folding removeObject over the snapshot of mesh keys empties both maps
when the key lists agree. -/
theorem clear_fold_empties :
    ∀ (ms : List (ℕ × MeshData)) (s : RegState),
      s.placedMeshes = ms →
      keysOf s.placedMeshes = keysOf s.placedBodies →
      ((keysOf ms).foldl removeObject s).placedMeshes = [] ∧
        ((keysOf ms).foldl removeObject s).placedBodies = [] := by
  intro ms
  induction ms with
  | nil =>
      intro s hm halign
      have hb : s.placedBodies = [] := by
        rw [hm] at halign
        exact List.map_eq_nil_iff.mp halign.symm
      refine ⟨?_, ?_⟩ <;> simp only [keysOf, List.map_nil, List.foldl_nil]
      · exact hm
      · exact hb
  | cons p rest ih =>
      intro s hm halign
      obtain ⟨k, v⟩ := p
      obtain ⟨hm1, hb1⟩ := removeObject_maps s k
      have hmesh : (removeObject s k).placedMeshes = rest := by
        rw [hm1, hm]
        simp [delKey]
      cases hbodies : s.placedBodies with
      | nil =>
          rw [hm, hbodies] at halign
          simp [keysOf] at halign
      | cons q bs =>
          obtain ⟨kb, b⟩ := q
          rw [hm, hbodies] at halign
          simp only [keysOf, List.map_cons, List.cons.injEq] at halign
          obtain ⟨hk, htail⟩ := halign
          subst hk
          have hbody : (removeObject s k).placedBodies = bs := by
            rw [hb1, hbodies]
            simp [delKey]
          have halign2 : keysOf (removeObject s k).placedMeshes =
              keysOf (removeObject s k).placedBodies := by
            rw [hmesh, hbody]
            exact htail
          have hstep : (keysOf ((k, v) :: rest)).foldl removeObject s =
              (keysOf rest).foldl removeObject (removeObject s k) := by
            simp [keysOf]
          rw [hstep]
          exact ih (removeObject s k) hmesh halign2

/-- The truncated remainder by 3 is above -3. -/
theorem tmod_three_lower (a : ℤ) : -3 < Int.tmod a 3 := by
  match a with
  | Int.ofNat m =>
      have h := Int.tmod_nonneg (a := Int.ofNat m) 3 (Int.ofNat_nonneg m)
      omega
  | Int.negSucc m =>
      have h : Int.tmod (Int.negSucc m) 3 = -(((m + 1) % 3 : ℕ) : ℤ) := rfl
      have h2 : (m + 1) % 3 < 3 := Nat.mod_lt _ (by norm_num)
      omega

theorem loadEntry_maps (s : RegState) (item : Option ProjectEntry) :
    (loadEntry s item).placedMeshes = loadEntryMeshes s.placedMeshes item ∧
      (loadEntry s item).placedBodies = loadEntryBodies s.placedBodies item := by
  cases item with
  | none => exact ⟨rfl, rfl⟩
  | some e =>
      obtain ⟨eid, eaid, epos, erot⟩ := e
      cases epos with
      | none => cases erot <;> exact ⟨rfl, rfl⟩
      | some pos =>
          cases erot with
          | none => exact ⟨rfl, rfl⟩
          | some rot =>
              by_cases hshort : pos.length < 3 ∨ rot.length < 3
              · simp only [loadEntry, loadEntryMeshes, loadEntryBodies,
                  if_pos hshort]
                exact ⟨trivial, trivial⟩
              · cases hres : findAssetById eaid with
                | none =>
                    simp only [loadEntry, loadEntryMeshes, loadEntryBodies,
                      if_neg hshort, hres]
                    exact ⟨trivial, trivial⟩
                | some asset =>
                    simp only [loadEntry, loadEntryMeshes, loadEntryBodies,
                      if_neg hshort, hres]
                    exact ⟨trivial, trivial⟩

theorem loadFold_maps (items : List (Option ProjectEntry)) :
    ∀ s : RegState,
      (items.foldl loadEntry s).placedMeshes =
          items.foldl loadEntryMeshes s.placedMeshes ∧
        (items.foldl loadEntry s).placedBodies =
          items.foldl loadEntryBodies s.placedBodies := by
  induction items with
  | nil => intro s; exact ⟨rfl, rfl⟩
  | cons e rest ih =>
      intro s
      obtain ⟨h1, h2⟩ := loadEntry_maps s e
      simp only [List.foldl_cons]
      rw [← h1, ← h2]
      exact ih (loadEntry s e)

theorem loadEntryMB_keys (m : List (ℕ × MeshData)) (b : List (ℕ × BodyData))
    (item : Option ProjectEntry) (h : keysOf m = keysOf b) :
    keysOf (loadEntryMeshes m item) = keysOf (loadEntryBodies b item) := by
  cases item with
  | none => exact h
  | some e =>
      obtain ⟨eid, eaid, epos, erot⟩ := e
      cases epos with
      | none => cases erot <;> exact h
      | some pos =>
          cases erot with
          | none => exact h
          | some rot =>
              by_cases hshort : pos.length < 3 ∨ rot.length < 3
              · simp only [loadEntryMeshes, loadEntryBodies, if_pos hshort]
                exact h
              · cases hres : findAssetById eaid with
                | none =>
                    simp only [loadEntryMeshes, loadEntryBodies,
                      if_neg hshort, hres]
                    exact h
                | some asset =>
                    simp only [loadEntryMeshes, loadEntryBodies,
                      if_neg hshort, hres]
                    rw [keysOf_setKey, keysOf_setKey, h]

theorem loadFold_keys (items : List (Option ProjectEntry)) :
    ∀ (m : List (ℕ × MeshData)) (b : List (ℕ × BodyData)),
      keysOf m = keysOf b →
      keysOf (items.foldl loadEntryMeshes m) =
        keysOf (items.foldl loadEntryBodies b) := by
  induction items with
  | nil => intro m b h; exact h
  | cons e rest ih =>
      intro m b h
      exact ih _ _ (loadEntryMB_keys m b e h)

theorem loadProject_maps (s : RegState) (L : List (Option ProjectEntry))
    (halign : keysAligned s) :
    (loadProject s (some L)).placedMeshes = L.foldl loadEntryMeshes [] ∧
      (loadProject s (some L)).placedBodies = L.foldl loadEntryBodies [] := by
  have hclear := clear_fold_empties s.placedMeshes s rfl halign
  obtain ⟨h1, h2⟩ := loadFold_maps L (clearPlaced s)
  show (L.foldl loadEntry (clearPlaced s)).placedMeshes = _ ∧
    (L.foldl loadEntry (clearPlaced s)).placedBodies = _
  rw [h1, h2]
  have hm : (clearPlaced s).placedMeshes = [] := hclear.1
  have hb : (clearPlaced s).placedBodies = [] := hclear.2
  rw [hm, hb]
  exact ⟨rfl, rfl⟩

/-- Each load step either skips or performs one keyed insertion of a mesh
whose assetId resolved. -/
theorem loadEntryMeshes_cases (m : List (ℕ × MeshData))
    (item : Option ProjectEntry) :
    loadEntryMeshes m item = m ∨
      ∃ e pos rot asset, item = some e ∧
        findAssetById e.assetId = some asset ∧
        loadEntryMeshes m item = setKey m e.id (loadMesh asset e pos rot) := by
  cases item with
  | none => exact Or.inl rfl
  | some e =>
      obtain ⟨eid, eaid, epos, erot⟩ := e
      cases epos with
      | none => cases erot <;> exact Or.inl rfl
      | some pos =>
          cases erot with
          | none => exact Or.inl rfl
          | some rot =>
              by_cases hshort : pos.length < 3 ∨ rot.length < 3
              · simp only [loadEntryMeshes, if_pos hshort]
                exact Or.inl trivial
              · cases hres : findAssetById eaid with
                | none =>
                    simp only [loadEntryMeshes, if_neg hshort, hres]
                    exact Or.inl trivial
                | some asset =>
                    simp only [loadEntryMeshes, if_neg hshort, hres]
                    exact Or.inr ⟨⟨eid, eaid, some pos, some rot⟩, pos, rot,
                      asset, rfl, hres, rfl⟩

theorem loadFold_nodup (items : List (Option ProjectEntry)) :
    ∀ m : List (ℕ × MeshData), (keysOf m).Nodup →
      (keysOf (items.foldl loadEntryMeshes m)).Nodup := by
  induction items with
  | nil => intro m h; exact h
  | cons e rest ih =>
      intro m h
      refine ih (loadEntryMeshes m e) ?_
      rcases loadEntryMeshes_cases m e with hcase | ⟨e0, pos, rot, asset, _, _, hcase⟩
      · rw [hcase]; exact h
      · rw [hcase]; exact nodup_setKey _ _ _ h

theorem loadFold_resolvable (items : List (Option ProjectEntry)) :
    ∀ m : List (ℕ × MeshData),
      (∀ p ∈ m, (findAssetById p.2.assetId).isSome = true) →
      ∀ p ∈ items.foldl loadEntryMeshes m,
        (findAssetById p.2.assetId).isSome = true := by
  induction items with
  | nil => intro m h; exact h
  | cons e rest ih =>
      intro m h
      refine ih (loadEntryMeshes m e) ?_
      intro p hp
      rcases loadEntryMeshes_cases m e with hcase |
        ⟨e0, pos, rot, asset, _, hres, hcase⟩
      · rw [hcase] at hp; exact h p hp
      · rw [hcase] at hp
        rcases mem_setKey _ _ _ _ hp with hmem | heq
        · exact h p hmem
        · subst heq
          show (findAssetById (loadMesh asset e0 pos rot).assetId).isSome = true
          unfold loadMesh
          simp only
          rw [hres]
          rfl

/-- Every catalog asset id resolves back through findAssetById. -/
theorem assetForKey_resolvable (key : String) (a : AssetDescriptor)
    (h : assetForKey key = some a) : (findAssetById a.id).isSome = true := by
  unfold assetForKey at h
  cases hf : ASSETS.find? (fun p => p.1 == key) with
  | none => rw [hf] at h; exact Option.noConfusion h
  | some pr =>
      rw [hf] at h
      simp only [Option.map_some', Option.some.injEq] at h
      have hmem := List.mem_of_find?_eq_some hf
      subst h
      fin_cases hmem <;> decide

theorem regInv_placeObject (s : RegState) (h : RegInv s) :
    RegInv (placeObject s) := by
  unfold placeObject
  by_cases hl : s.isLocked = false
  · simpa [hl] using h
  · simp only [hl, if_false]
    cases hres : (decorationKeyAt s.assetIndex).bind assetForKey with
    | none => exact h
    | some asset =>
        obtain ⟨ha, hn, hr⟩ := h
        refine ⟨?_, ?_, ?_⟩
        · show keysOf (setKey s.placedMeshes s.nextId _) =
            keysOf (setKey s.placedBodies s.nextId _)
          rw [keysOf_setKey, keysOf_setKey, ha]
        · show (keysOf (setKey s.placedMeshes s.nextId _)).Nodup
          exact nodup_setKey _ _ _ hn
        · intro p hp
          rcases mem_setKey _ _ _ _ hp with hmem | heq
          · exact hr p hmem
          · subst heq
            show (findAssetById (commitMesh asset s.ghost).assetId).isSome = true
            obtain ⟨key, hkey, hfk⟩ := Option.bind_eq_some.mp hres
            unfold commitMesh
            simp only
            exact assetForKey_resolvable key asset hfk

theorem regInv_removeObject (s : RegState) (id : ℕ) (h : RegInv s) :
    RegInv (removeObject s id) := by
  obtain ⟨hm1, hb1⟩ := removeObject_maps s id
  obtain ⟨ha, hn, hr⟩ := h
  refine ⟨?_, ?_, ?_⟩
  · rw [hm1, hb1, keysOf_delKey, keysOf_delKey, ha]
  · rw [hm1, keysOf_delKey]
    exact hn.erase _
  · intro p hp
    rw [hm1] at hp
    exact hr p (mem_delKey _ _ _ hp)

theorem regInv_loadProject (s : RegState)
    (pd : Option (List (Option ProjectEntry))) (h : RegInv s) :
    RegInv (loadProject s pd) := by
  cases pd with
  | none =>
      obtain ⟨hm, hb⟩ := clear_fold_empties s.placedMeshes s rfl h.1
      show RegInv (clearPlaced s)
      refine ⟨?_, ?_, ?_⟩
      · rw [show (clearPlaced s).placedMeshes = [] from hm,
          show (clearPlaced s).placedBodies = [] from hb]
        rfl
      · rw [show (clearPlaced s).placedMeshes = [] from hm]
        exact List.nodup_nil
      · intro p hp
        rw [show (clearPlaced s).placedMeshes = [] from hm] at hp
        exact absurd hp (List.not_mem_nil p)
  | some L =>
      obtain ⟨hm, hb⟩ := loadProject_maps s L h.1
      refine ⟨?_, ?_, ?_⟩
      · rw [hm, hb]
        exact loadFold_keys L [] [] rfl
      · rw [hm]
        exact loadFold_nodup L [] List.nodup_nil
      · intro p hp
        rw [hm] at hp
        refine loadFold_resolvable L [] ?_ p hp
        intro q hq
        exact absurd hq (List.not_mem_nil q)

theorem regInv_applyOp (s : RegState) (op : RegOp) (h : RegInv s) :
    RegInv (applyOp s op) := by
  cases op with
  | commit => exact regInv_placeObject s h
  | remove id => exact regInv_removeObject s id h
  | reload pd => exact regInv_loadProject s pd h
  | cycleAsset d => exact h
  | moveGhost g => exact h
  | setLock b => exact h

theorem regInv_fold (ops : List RegOp) :
    ∀ s : RegState, RegInv s → RegInv (ops.foldl applyOp s) := by
  induction ops with
  | nil => intro s h; exact h
  | cons op rest ih =>
      intro s h
      exact ih (applyOp s op) (regInv_applyOp s op h)

/-- Every replayed state satisfies the registry invariant. -/
theorem regInv_replay (ops : List RegOp) : RegInv (replayOps ops) := by
  refine regInv_fold ops initReg ⟨rfl, List.nodup_nil, ?_⟩
  intro p hp
  exact absurd hp (List.not_mem_nil p)

/-- Reloading the serialization of a registry with unique, resolvable
entries reproduces exactly its key list. -/
theorem serialize_reload_keys :
    ∀ (ms : List (ℕ × MeshData)) (m0 : List (ℕ × MeshData)),
      (keysOf ms).Nodup →
      (∀ p ∈ ms, (findAssetById p.2.assetId).isSome = true) →
      (∀ k ∈ keysOf ms, k ∉ keysOf m0) →
      keysOf ((ms.map serializeMesh).foldl loadEntryMeshes m0) =
        keysOf m0 ++ keysOf ms := by
  intro ms
  induction ms with
  | nil =>
      intro m0 _ _ _
      simp [keysOf]
  | cons p rest ih =>
      intro m0 hnd hres hfresh
      obtain ⟨k, mesh⟩ := p
      have hkmem : k ∈ keysOf ((k, mesh) :: rest) := by
        simp [keysOf]
      have hknotin : k ∉ keysOf m0 := hfresh k hkmem
      have hsome : (findAssetById mesh.assetId).isSome = true :=
        hres (k, mesh) (List.mem_cons_self _ _)
      obtain ⟨asset, hasset⟩ := Option.isSome_iff_exists.mp hsome
      have hstep : loadEntryMeshes m0 (serializeMesh (k, mesh)) =
          m0 ++ [(k, loadMesh asset
            ⟨k, mesh.assetId,
             some [mesh.position.x, mesh.position.y, mesh.position.z],
             some [mesh.rotX, mesh.rotY, mesh.rotZ]⟩
            [mesh.position.x, mesh.position.y, mesh.position.z]
            [mesh.rotX, mesh.rotY, mesh.rotZ])] := by
        simp only [serializeMesh, loadEntryMeshes]
        rw [if_neg (by simp), hasset]
        exact setKey_not_mem k _ m0 hknotin
      simp only [List.map_cons, List.foldl_cons]
      rw [hstep]
      have hnd2 : (keysOf rest).Nodup := by
        simpa [keysOf, List.nodup_cons] using hnd.of_cons
      have hknotrest : k ∉ keysOf rest := by
        simp only [keysOf] at hnd ⊢
        exact (List.nodup_cons.mp hnd).1
      have hres2 : ∀ q ∈ rest, (findAssetById q.2.assetId).isSome = true :=
        fun q hq => hres q (List.mem_cons_of_mem _ hq)
      have hfresh2 : ∀ (mm : MeshData), ∀ j ∈ keysOf rest,
          j ∉ keysOf (m0 ++ [(k, mm)]) := by
        intro mm j hj
        simp only [keysOf, List.map_append, List.map_cons, List.map_nil,
          List.mem_append, List.mem_singleton, not_or]
        constructor
        · exact hfresh j (List.mem_cons_of_mem _ hj)
        · intro hjk
          exact hknotrest (hjk ▸ hj)
      rw [ih _ hnd2 hres2 (hfresh2 _)]
      simp [keysOf]

/-- C9: after every sequence of commit (placeObject), remove (removeObject)
and reload (loadProject) operations starting from the empty registry
(interleaved with asset cycling, ghost motion and pointer lock changes),
the key lists of placedMeshes and placedBodies are identical: every id maps
to both a mesh and a body, or to neither, never to a dangling half. -/
theorem claim_C9_registry_key_alignment (ops : List RegOp) :
    keysOf (replayOps ops).placedMeshes =
        keysOf (replayOps ops).placedBodies ∧
      ∀ id : ℕ, (getKey (replayOps ops).placedMeshes id).isSome =
        (getKey (replayOps ops).placedBodies id).isSome := by
  have h := (regInv_replay ops).1
  refine ⟨h, ?_⟩
  intro id
  by_cases hmem : id ∈ keysOf (replayOps ops).placedMeshes
  · have h1 := (getKey_isSome_iff (replayOps ops).placedMeshes id).mpr hmem
    have h2 := (getKey_isSome_iff (replayOps ops).placedBodies id).mpr
      (h ▸ hmem)
    rw [h1, h2]
  · have hmem2 : id ∉ keysOf (replayOps ops).placedBodies := h ▸ hmem
    rw [(getKey_eq_none_iff _ _).mpr hmem,
      (getKey_eq_none_iff _ _).mpr hmem2]
    rfl

/-- C4: loadProject is idempotent on the registry maps: reloading the same
list twice gives the same registry contents as reloading it once, for any
starting state whose two maps are key-aligned (every state the operations
can produce is, by the replay invariant); after any operation sequence from
the empty registry, reloading the serialized registry reproduces exactly
the registry's id list; and reload of the empty list empties the registry
regardless of the prior (key-aligned) state. -/
theorem claim_C4_reload_idempotent :
    (∀ (s : RegState) (L : List (Option ProjectEntry)), keysAligned s →
      regMaps (loadProject (loadProject s (some L)) (some L)) =
        regMaps (loadProject s (some L)))
    ∧ (∀ ops : List RegOp,
      keysOf (loadProject (replayOps ops)
          (some (serializeProject (replayOps ops)))).placedMeshes =
        keysOf (replayOps ops).placedMeshes)
    ∧ (∀ s : RegState, keysAligned s →
      (loadProject s (some [])).placedMeshes = [] ∧
        (loadProject s (some [])).placedBodies = []) := by
  refine ⟨?_, ?_, ?_⟩
  · intro s L halign
    obtain ⟨h1m, h1b⟩ := loadProject_maps s L halign
    have halign2 : keysAligned (loadProject s (some L)) := by
      unfold keysAligned
      rw [h1m, h1b]
      exact loadFold_keys L [] [] rfl
    obtain ⟨h2m, h2b⟩ := loadProject_maps (loadProject s (some L)) L halign2
    unfold regMaps
    rw [h1m, h1b, h2m, h2b]
  · intro ops
    obtain ⟨hal, hnd, hres⟩ := regInv_replay ops
    obtain ⟨hm, _⟩ := loadProject_maps (replayOps ops)
      (serializeProject (replayOps ops)) hal
    rw [hm]
    have hsr := serialize_reload_keys (replayOps ops).placedMeshes []
      hnd hres (fun k _ => List.not_mem_nil k)
    calc keysOf ((serializeProject (replayOps ops)).foldl loadEntryMeshes [])
        = keysOf ([] : List (ℕ × MeshData)) ++
            keysOf (replayOps ops).placedMeshes := hsr
      _ = keysOf (replayOps ops).placedMeshes := by simp [keysOf]
  · intro s halign
    exact loadProject_maps s [] halign

/-- Witness for C4 at the startup state and a one-entry wall list. -/
theorem claim_C4_witness :
    keysAligned initReg ∧
      regMaps (loadProject (loadProject initReg
          (some [some ⟨7, "wall", some [.num 0, .num 0, .num 0],
                       some [.num 0, .num 0, .num 0]⟩]))
        (some [some ⟨7, "wall", some [.num 0, .num 0, .num 0],
                     some [.num 0, .num 0, .num 0]⟩])) =
        regMaps (loadProject initReg
          (some [some ⟨7, "wall", some [.num 0, .num 0, .num 0],
                       some [.num 0, .num 0, .num 0]⟩])) ∧
      ((loadProject initReg (some [])).placedMeshes = [] ∧
        (loadProject initReg (some [])).placedBodies = []) :=
  ⟨by decide,
   claim_C4_reload_idempotent.1 initReg
     [some ⟨7, "wall", some [.num 0, .num 0, .num 0],
            some [.num 0, .num 0, .num 0]⟩] (by decide),
   claim_C4_reload_idempotent.2.2 initReg (by decide)⟩

/-- C10: for every integer direction, including directions larger in
magnitude than the palette length, and every starting assetIndex in range,
changeAsset leaves assetIndex inside the half-open range from 0 to the
number of decoration asset keys: cycling wraps in both directions and
never yields a negative or out-of-range index. -/
theorem claim_C10_changeAsset_in_range (i d : ℤ) (_h0 : 0 ≤ i)
    (_h1 : i < (DECORATION_ASSET_KEYS.length : ℤ)) :
    0 ≤ changeAssetIndex i d ∧
      changeAssetIndex i d < (DECORATION_ASSET_KEYS.length : ℤ) := by
  have hlen : (DECORATION_ASSET_KEYS.length : ℤ) = 3 := by decide
  unfold changeAssetIndex jsRem
  rw [hlen]
  have hlow := tmod_three_lower (i + d)
  have hup := Int.tmod_lt_of_pos (i + d) (b := 3) (by norm_num)
  dsimp only
  omega

/-- Witness for C10 at assetIndex 0 and direction -7. -/
theorem claim_C10_witness :
    0 ≤ (0 : ℤ) ∧ (0 : ℤ) < (DECORATION_ASSET_KEYS.length : ℤ) ∧
      0 ≤ changeAssetIndex 0 (-7) ∧
      changeAssetIndex 0 (-7) < (DECORATION_ASSET_KEYS.length : ℤ) :=
  ⟨by decide, by decide, claim_C10_changeAsset_in_range 0 (-7) (by decide) (by decide)⟩

/-- C2: a jump request with isGrounded true (and movementEnabled true) sets
the vertical velocity to exactly JUMP_VELOCITY and clears isGrounded,
leaving every other field unchanged; a jump request with isGrounded false
leaves the whole player state unchanged. -/
theorem claim_C2_handleJump (s : PlayerState) :
    (s.isGrounded = true → s.movementEnabled = true →
      handleJump s = { s with vy := JUMP_VELOCITY, isGrounded := false })
    ∧ (s.isGrounded = false → handleJump s = s) := by
  constructor
  · intro hg _
    simp [handleJump, hg]
  · intro hg
    simp [handleJump, hg]

/-- Witness for C2: a grounded jump at rest, and an airborne non-jump. -/
theorem claim_C2_witness :
    handleJump ⟨0, 0, 0, true, true⟩ = ⟨0, 15, 0, false, true⟩ ∧
      handleJump ⟨1, 2, 3, false, true⟩ = ⟨1, 2, 3, false, true⟩ :=
  ⟨(claim_C2_handleJump ⟨0, 0, 0, true, true⟩).1 rfl rfl,
   (claim_C2_handleJump ⟨1, 2, 3, false, true⟩).2 rfl⟩

/-- C6: when the currently selected asset key resolves to no catalog entry,
placeObject leaves the whole state unchanged: registry maps, scene, physics
world, everything (and, being a total function that returns before touching
anything, raises nothing). -/
theorem claim_C6_commit_missing_asset_noop (s : RegState)
    (h : (decorationKeyAt s.assetIndex).bind assetForKey = none) :
    placeObject s = s := by
  unfold placeObject
  by_cases hl : s.isLocked = false
  · simp [hl]
  · simp [hl, h]

/-- Witness for C6: assetIndex 5 points past the decoration palette. -/
theorem claim_C6_witness :
    (decorationKeyAt ({ initReg with assetIndex := 5, isLocked := true } :
        RegState).assetIndex).bind assetForKey = none ∧
      placeObject { initReg with assetIndex := 5, isLocked := true } =
        { initReg with assetIndex := 5, isLocked := true } :=
  ⟨by decide, claim_C6_commit_missing_asset_noop _ (by decide)⟩

/-- C7: removing an id recorded in neither registry map leaves the whole
state unchanged (and raises nothing). -/
theorem claim_C7_remove_unknown_noop (s : RegState) (id : ℕ)
    (hm : getKey s.placedMeshes id = none)
    (hb : getKey s.placedBodies id = none) :
    removeObject s id = s := by
  unfold removeObject
  simp [hm, hb]

/-- Witness for C7: removing id 3 from the startup registry. -/
theorem claim_C7_witness :
    getKey (initReg.placedMeshes) 3 = none ∧
      getKey (initReg.placedBodies) 3 = none ∧
      removeObject initReg 3 = initReg :=
  ⟨by decide, by decide, claim_C7_remove_unknown_noop initReg 3 (by decide) (by decide)⟩

/-- C5 counterexample: with the table selected and the placement ray
hitting the floor at (7, 0, -3), the ghost is snapped to (7, h/2, -3), not
to the (5, h/2, -5) the claim predicts for a grid step of 5 (the source
hardcodes gridStep = 1); moreover a hit on a committed object (here a sofa)
alone hides the ghost instead of snapping to it, because only hits tagged
with the floor asset id are accepted. -/
theorem claim_C5_counterexample :
    (updateGhostPosition initGhost tableAsset
        [⟨some "floor", ⟨7, 0, -3⟩⟩]).visible = true ∧
      (updateGhostPosition initGhost tableAsset
        [⟨some "floor", ⟨7, 0, -3⟩⟩]).position =
        ⟨.num 7, .num (1 / 4), .num (-3)⟩ ∧
      (⟨.num 7, .num (1 / 4), .num (-3)⟩ : JSVec3) ≠
        ⟨.num 5, .num (1 / 4), .num (-5)⟩ ∧
      (updateGhostPosition initGhost tableAsset
        [⟨some "sofa", ⟨7, 0, -3⟩⟩]).visible = false := by
  refine ⟨by decide, ?_, ?_, by decide⟩
  · unfold updateGhostPosition
    norm_num [List.find?, jsRound, jsHalf, jsIndex, tableAsset, initGhost,
      floorAsset]
  · intro h
    have hx := congrArg JSVec3.x h
    simp only [JSVal.num.injEq] at hx
    norm_num at hx

/-- C5 (amended): whenever the intersection list contains a hit tagged with
the floor asset id (the first such hit is used; hits on committed objects
do not count), the ghost is set visible and positioned at the grid-snapped
point with the hardcoded grid step 1, that is at
(round(px), h/2, round(pz)) where round is JS Math.round and h is the
selected asset's configured height; when there is no floor hit the ghost
is hidden. -/
theorem claim_C5_ghost_snap (g : GhostState) (asset : AssetDescriptor)
    (l : List Intersection) :
    (∀ i, l.find? (fun j => j.assetId == some floorAsset.id) = some i →
      (updateGhostPosition g asset l).visible = true ∧
        (updateGhostPosition g asset l).position =
          ⟨.num ((⌊i.point.x + 1 / 2⌋ : ℤ) : ℚ),
           jsHalf (jsIndex asset.size 1),
           .num ((⌊i.point.z + 1 / 2⌋ : ℤ) : ℚ)⟩)
    ∧ (l.find? (fun j => j.assetId == some floorAsset.id) = none →
        (updateGhostPosition g asset l).visible = false) := by
  constructor
  · intro i hi
    have hne : l ≠ [] := by
      intro h
      rw [h] at hi
      exact Option.noConfusion hi
    have hlen : l.length > 0 := List.length_pos.mpr hne
    unfold updateGhostPosition
    rw [if_pos hlen, hi]
    unfold jsRound
    simp [div_one, mul_one]
  · intro hn
    unfold updateGhostPosition
    by_cases hlen : l.length > 0
    · rw [if_pos hlen, hn]
    · rw [if_neg hlen]

/-- Witness for C5 at a floor hit behind an untagged hit, wall selected. -/
theorem claim_C5_witness :
    ([⟨none, ⟨0, 0, 0⟩⟩, ⟨some "floor", ⟨-11/10, 0, 13/5⟩⟩] :
        List Intersection).find?
        (fun j => j.assetId == some floorAsset.id) =
      some ⟨some "floor", ⟨-11/10, 0, 13/5⟩⟩ ∧
    (updateGhostPosition initGhost wallAsset
        [⟨none, ⟨0, 0, 0⟩⟩, ⟨some "floor", ⟨-11/10, 0, 13/5⟩⟩]).visible = true ∧
    (updateGhostPosition initGhost wallAsset
        [⟨none, ⟨0, 0, 0⟩⟩, ⟨some "floor", ⟨-11/10, 0, 13/5⟩⟩]).position =
      ⟨.num ((⌊(-11/10 : ℚ) + 1 / 2⌋ : ℤ) : ℚ),
       jsHalf (jsIndex wallAsset.size 1),
       .num ((⌊(13/5 : ℚ) + 1 / 2⌋ : ℤ) : ℚ)⟩ :=
  ⟨rfl,
   ((claim_C5_ghost_snap initGhost wallAsset
      [⟨none, ⟨0, 0, 0⟩⟩, ⟨some "floor", ⟨-11/10, 0, 13/5⟩⟩]).1
      ⟨some "floor", ⟨-11/10, 0, 13/5⟩⟩ rfl).1,
   ((claim_C5_ghost_snap initGhost wallAsset
      [⟨none, ⟨0, 0, 0⟩⟩, ⟨some "floor", ⟨-11/10, 0, 13/5⟩⟩]).1
      ⟨some "floor", ⟨-11/10, 0, 13/5⟩⟩ rfl).2⟩

/-- C8 counterexample: an entry whose position is an array of three
non-numeric values is not skipped: loadProject records it in the registry,
because the source validates only array-ness and length, never that the
components are numbers. -/
theorem claim_C8_counterexample :
    (getKey (loadProject initReg
        (some [some ⟨1, "sofa", some [.nonnum, .nonnum, .nonnum],
                     some [.num 0, .num 0, .num 0]⟩])).placedMeshes 1).isSome
      = true := by
  decide

/-- C8 (amended): during loadProject each entry that is null, or whose
position or rotation is not an array of length at least 3 (element types
are not checked), or whose assetId resolves to no catalog asset, is skipped
individually (the skip is the identity on the state, so the surrounding
fold continues with the remaining entries and the load never aborts);
every entry that passes those checks is loaded into both registry maps
under its id, whatever the neighboring entries look like. -/
theorem claim_C8_per_entry_validation (s : RegState) (eid : ℕ) (eaid : String)
    (epos erot : Option (List JSVal)) :
    (loadEntry s none = s)
    ∧ (epos = none → loadEntry s (some ⟨eid, eaid, epos, erot⟩) = s)
    ∧ (erot = none → loadEntry s (some ⟨eid, eaid, epos, erot⟩) = s)
    ∧ (∀ pos rot, epos = some pos → erot = some rot →
        (pos.length < 3 ∨ rot.length < 3) →
        loadEntry s (some ⟨eid, eaid, epos, erot⟩) = s)
    ∧ (∀ pos rot, epos = some pos → erot = some rot →
        findAssetById eaid = none →
        loadEntry s (some ⟨eid, eaid, epos, erot⟩) = s)
    ∧ (∀ pos rot asset, epos = some pos → erot = some rot →
        ¬(pos.length < 3 ∨ rot.length < 3) →
        findAssetById eaid = some asset →
        (loadEntry s (some ⟨eid, eaid, epos, erot⟩)).placedMeshes =
            setKey s.placedMeshes eid
              (loadMesh asset ⟨eid, eaid, epos, erot⟩ pos rot) ∧
          (loadEntry s (some ⟨eid, eaid, epos, erot⟩)).placedBodies =
            setKey s.placedBodies eid (loadBody asset rot)) := by
  refine ⟨rfl, ?_, ?_, ?_, ?_, ?_⟩
  · intro hp
    subst hp
    rcases erot with _ | rot <;> rfl
  · intro hr
    subst hr
    rcases epos with _ | pos <;> rfl
  · intro pos rot hp hr hshort
    subst hp; subst hr
    simp only [loadEntry]
    rw [if_pos hshort]
  · intro pos rot hp hr hres
    subst hp; subst hr
    simp only [loadEntry]
    by_cases hshort : pos.length < 3 ∨ rot.length < 3
    · rw [if_pos hshort]
    · rw [if_neg hshort, hres]
  · intro pos rot asset hp hr hshort hres
    subst hp; subst hr
    simp only [loadEntry]
    rw [if_neg hshort, hres]
    exact ⟨rfl, rfl⟩

/-- Normalizing a nonzero horizontal vector yields a horizontal unit
vector. -/
theorem threeNormalize_horizontal_unit (dx dz : ℝ) (h : dx ^ 2 + dz ^ 2 ≠ 0) :
    (threeNormalizeR ⟨dx, 0, dz⟩).y = 0 ∧
      (threeNormalizeR ⟨dx, 0, dz⟩).x ^ 2 +
        (threeNormalizeR ⟨dx, 0, dz⟩).z ^ 2 = 1 := by
  have hpos : 0 < dx ^ 2 + dz ^ 2 := by positivity
  have hlsq : lengthSqR ⟨dx, 0, dz⟩ = dx ^ 2 + dz ^ 2 := by
    unfold lengthSqR; ring
  have hlen : lengthR ⟨dx, 0, dz⟩ = Real.sqrt (dx ^ 2 + dz ^ 2) := by
    unfold lengthR; rw [hlsq]
  have hlpos : 0 < lengthR ⟨dx, 0, dz⟩ := by
    rw [hlen]; exact Real.sqrt_pos.mpr hpos
  have hlne : lengthR ⟨dx, 0, dz⟩ ≠ 0 := ne_of_gt hlpos
  unfold threeNormalizeR vsmulR
  rw [if_neg hlne]
  refine ⟨by simp, ?_⟩
  have hsq : (lengthR ⟨dx, 0, dz⟩) ^ 2 = dx ^ 2 + dz ^ 2 := by
    rw [hlen]
    exact Real.sq_sqrt hpos.le
  field_simp
  nlinarith [hsq]

/-- The game.js loop applies exactly the configured speed on the
forward-right diagonal, for any camera direction that is not straight
up or down. -/
theorem game_diagonal_speed_aux (camDir : Vec3R) (speed : ℝ)
    (h : camDir.x ^ 2 + camDir.z ^ 2 ≠ 0) (hs : 0 ≤ speed) :
    Real.sqrt ((gameAnimateVelocity camDir speed true false false true).x ^ 2 +
      (gameAnimateVelocity camDir speed true false false true).z ^ 2) = speed := by
  obtain ⟨hy, hunit⟩ := threeNormalize_horizontal_unit camDir.x camDir.z h
  set dir := threeNormalizeR ⟨camDir.x, 0, camDir.z⟩ with hdir
  have hcross_lsq : lengthSqR (crossUpR dir) = 1 := by
    unfold lengthSqR crossUpR
    simp only
    nlinarith [hunit]
  have hcross_len : lengthR (crossUpR dir) = 1 := by
    unfold lengthR; rw [hcross_lsq]; exact Real.sqrt_one
  have hright : threeNormalizeR (crossUpR dir) = crossUpR dir := by
    unfold threeNormalizeR
    rw [hcross_len]
    norm_num
    unfold vsmulR
    rcases crossUpR dir with ⟨a, b, c⟩
    simp
  have hv4 : vaddR (vaddR ⟨0, 0, 0⟩ (vsmulR 1 dir)) (vsmulR (-1) (crossUpR dir)) =
      (⟨dir.x - dir.z, dir.y, dir.z + dir.x⟩ : Vec3R) := by
    unfold vaddR vsmulR crossUpR
    simp only [Vec3R.mk.injEq]
    refine ⟨by ring, by ring, by ring⟩
  have hlsq4 : lengthSqR (⟨dir.x - dir.z, dir.y, dir.z + dir.x⟩ : Vec3R) = 2 := by
    unfold lengthSqR
    simp only
    rw [hy]
    linear_combination 2 * hunit
  have hlen4 : lengthR (⟨dir.x - dir.z, dir.y, dir.z + dir.x⟩ : Vec3R) =
      Real.sqrt 2 := by
    unfold lengthR; rw [hlsq4]
  have hs2pos : (0 : ℝ) < Real.sqrt 2 := Real.sqrt_pos.mpr (by norm_num)
  have hn4 : threeNormalizeR (⟨dir.x - dir.z, dir.y, dir.z + dir.x⟩ : Vec3R) =
      vsmulR (1 / Real.sqrt 2) ⟨dir.x - dir.z, dir.y, dir.z + dir.x⟩ := by
    unfold threeNormalizeR
    rw [hlen4, if_neg (ne_of_gt hs2pos)]
  have hexpand : gameAnimateVelocity camDir speed true false false true =
      vsmulR speed (vsmulR (1 / Real.sqrt 2)
        ⟨dir.x - dir.z, dir.y, dir.z + dir.x⟩) := by
    unfold gameAnimateVelocity
    rw [← hdir]
    show (if lengthSqR (vaddR (vaddR ⟨0, 0, 0⟩ (vsmulR 1 dir))
            (vsmulR (-1) (threeNormalizeR (crossUpR dir)))) > 0
      then vsmulR speed (threeNormalizeR (vaddR (vaddR ⟨0, 0, 0⟩ (vsmulR 1 dir))
            (vsmulR (-1) (threeNormalizeR (crossUpR dir)))))
      else vaddR (vaddR ⟨0, 0, 0⟩ (vsmulR 1 dir))
            (vsmulR (-1) (threeNormalizeR (crossUpR dir)))) = _
    rw [hright, hv4, hlsq4, hn4]
    rw [if_pos (by norm_num : (2 : ℝ) > 0)]
  rw [hexpand]
  unfold vsmulR
  simp only
  have h2 : (Real.sqrt 2) ^ 2 = 2 := Real.sq_sqrt (by norm_num)
  have hsum : (speed * (1 / Real.sqrt 2 * (dir.x - dir.z))) ^ 2 +
      (speed * (1 / Real.sqrt 2 * (dir.z + dir.x))) ^ 2 = speed ^ 2 := by
    field_simp
    nlinarith [hunit, h2]
  rw [hsum, Real.sqrt_sq hs]

/-- C1 counterexample: in the SceneManager.js animate loop, at camera
direction (0, 0, -1) and frame delta 1/60, holding moveForward and
moveRight yields the applied horizontal velocity (25, -25), whose squared
magnitude 1250 differs from MOVEMENT_SPEED squared (625): the sum of the
two contributions is never normalized there, so the diagonal is faster
than the configured speed by a factor of sqrt 2. -/
theorem claim_C1_counterexample :
    (smAppliedVelocity ⟨0, 0, -1⟩ (1 / 60) true false false true).1 = 25 ∧
      (smAppliedVelocity ⟨0, 0, -1⟩ (1 / 60) true false false true).2 = -25 ∧
      (smAppliedVelocity ⟨0, 0, -1⟩ (1 / 60) true false false true).1 ^ 2 +
        (smAppliedVelocity ⟨0, 0, -1⟩ (1 / 60) true false false true).2 ^ 2 ≠
        MOVEMENT_SPEED ^ 2 := by
  norm_num [smAppliedVelocity, smInputVelocity, addScaledQ, MOVEMENT_SPEED]

/-- C1 (amended): in the game.js animate loop the summed direction vector
is normalized before scaling, so with both moveForward and moveRight set
(and no other flags) the applied horizontal velocity has magnitude exactly
the configured movement speed; in the SceneManager.js animate loop no
normalization is applied, and the same input yields squared magnitude
2 times speed squared, that is speed times sqrt 2. -/
theorem claim_C1_diagonal_speed :
    (∀ (camDir : Vec3R) (speed : ℝ),
      camDir.x ^ 2 + camDir.z ^ 2 ≠ 0 → 0 ≤ speed →
      Real.sqrt ((gameAnimateVelocity camDir speed true false false true).x ^ 2 +
        (gameAnimateVelocity camDir speed true false false true).z ^ 2) = speed)
    ∧ (∀ (dir : Vec3Q) (delta : ℚ),
      dir.x ^ 2 + dir.z ^ 2 = 1 → delta ≠ 0 →
      (smAppliedVelocity dir delta true false false true).1 ^ 2 +
        (smAppliedVelocity dir delta true false false true).2 ^ 2 =
        2 * MOVEMENT_SPEED ^ 2) := by
  constructor
  · exact game_diagonal_speed_aux
  · intro dir delta hunit hd
    unfold smAppliedVelocity smInputVelocity addScaledQ MOVEMENT_SPEED
    simp only
    field_simp
    linear_combination (1250 * delta ^ 2 : ℚ) * hunit

/-- Witness for C1 at camera direction (0, 0, -1), speed 25, delta 1/60. -/
theorem claim_C1_witness :
    ((0 : ℝ) ^ 2 + (-1 : ℝ) ^ 2 ≠ 0) ∧
      Real.sqrt ((gameAnimateVelocity ⟨0, 0, -1⟩ 25 true false false true).x ^ 2 +
        (gameAnimateVelocity ⟨0, 0, -1⟩ 25 true false false true).z ^ 2) = 25 ∧
      (smAppliedVelocity ⟨0, 0, -1⟩ (1 / 60) true false false true).1 ^ 2 +
        (smAppliedVelocity ⟨0, 0, -1⟩ (1 / 60) true false false true).2 ^ 2 =
        2 * MOVEMENT_SPEED ^ 2 :=
  ⟨by norm_num,
   claim_C1_diagonal_speed.1 ⟨0, 0, -1⟩ 25 (by norm_num) (by norm_num),
   claim_C1_diagonal_speed.2 ⟨0, 0, -1⟩ (1 / 60) (by norm_num) (by norm_num)⟩

/-- Replaying events preserves reachability. -/
theorem ctrlReachable_foldl (evs : List GameEv) (s : CtrlState)
    (h : CtrlReachable s) : CtrlReachable (evs.foldl ctrlStep s) := by
  induction evs generalizing s with
  | nil => exact h
  | cons e rest ih => exact ih (ctrlStep s e) (CtrlReachable.step s e h)

/-- C3: the movementEnabled suspension mechanism is dead in the composed
source. SceneInitializer.js line 142 constructs FirstPersonControls with
three arguments, so this.manager is undefined and the guards in _onKeyDown
and update never fire, and setMovementEnabled calls
this.controls.setEnabled, which does not exist under that name. Hence the
reachable state after locking, disabling movement, pressing W and running
one frame has movementEnabled false but moveForward true and applied
horizontal velocity (0, -25), while the claim requires all movement flags
clear and horizontal velocity (0, 0) in every such state. -/
theorem claim_C3_gate_dead :
    CtrlReachable c3State ∧
      c3State.movementEnabled = false ∧
      c3State.moveForward = true ∧
      c3State.velX = 0 ∧
      c3State.velZ = -25 ∧
      ((-25 : ℚ) ≠ 0) := by
  refine ⟨ctrlReachable_foldl c3Trace ctrlInit CtrlReachable.init,
    rfl, rfl, ?_, ?_, by norm_num⟩
  · show (smAppliedVelocity ⟨0, 0, -1⟩ (1 / 60) true false false false).1 = 0
    norm_num [smAppliedVelocity, smInputVelocity, addScaledQ, MOVEMENT_SPEED]
  · show (smAppliedVelocity ⟨0, 0, -1⟩ (1 / 60) true false false false).2 = -25
    norm_num [smAppliedVelocity, smInputVelocity, addScaledQ, MOVEMENT_SPEED]

/-- Witness for C8: a short-rotation entry is skipped; a well-formed table
entry is loaded. -/
theorem claim_C8_witness :
    loadEntry initReg
        (some ⟨4, "table", some [.num 1, .num 2, .num 3], some [.num 0]⟩) =
      initReg ∧
    (loadEntry initReg
        (some ⟨4, "table", some [.num 1, .num 2, .num 3],
               some [.num 0, .num 0, .num 0]⟩)).placedMeshes =
      setKey initReg.placedMeshes 4
        (loadMesh tableAsset
          ⟨4, "table", some [.num 1, .num 2, .num 3],
           some [.num 0, .num 0, .num 0]⟩
          [.num 1, .num 2, .num 3] [.num 0, .num 0, .num 0]) :=
  ⟨(claim_C8_per_entry_validation initReg 4 "table"
      (some [.num 1, .num 2, .num 3]) (some [.num 0])).2.2.2.1
      [.num 1, .num 2, .num 3] [.num 0] rfl rfl (by decide),
   ((claim_C8_per_entry_validation initReg 4 "table"
      (some [.num 1, .num 2, .num 3])
      (some [.num 0, .num 0, .num 0])).2.2.2.2.2
      [.num 1, .num 2, .num 3] [.num 0, .num 0, .num 0] tableAsset
      rfl rfl (by decide) rfl).1⟩

end BlockBuilder
